import Mathlib

/-!
Verification of the dataset core of the disease-detection repository
(`src/datasets.py`): the minibatch iterator, the batch loader, the
image-preprocessing pipeline of `KaggleDR`, and the construction-time
error behaviour.

The embedding mirrors the Python source.  External collaborators
(`skimage.transform.resize`, the image decoder, `pandas.read_csv`,
`np.random.shuffle`) are taken as parameters together with the contract
the source relies on; everything written in `datasets.py` itself is
translated definition by definition.
-/

namespace DiseaseDetection

/-! ## Python `range` with positive step

`range(start, stop, step)` over the integers, needed because
`iterate_minibatches` iterates `range(0, len(indices) - batch_size + 1,
batch_size)` and `len(indices) - batch_size + 1` may be non-positive. -/

/-- Number of elements of Python `range(start, stop, step)` for a positive
step. -/
def rangeCount (start stop step : Int) : Nat :=
  if start < stop ∧ 0 < step then ((stop - start - 1) / step).toNat + 1 else 0

/-- Python `range(start, stop, step)` (positive step) as a list of
integers. -/
def pythonRange (start stop step : Int) : List Int :=
  (List.range (rangeCount start stop step)).map (fun (k : Nat) => start + (k : Int) * step)

/-! ## `Dataset.iterate_minibatches`: index windowing

`for start_idx in range(0, len(indices) - batch_size + 1, batch_size):
    excerpt = indices[start_idx:start_idx + batch_size]`
(src/datasets.py lines 63-64). -/

/-- The successive excerpts `indices[start_idx : start_idx + batchsize]`
produced by the loop of `iterate_minibatches`. -/
def minibatchWindows (indices : List α) (batchsize : Nat) : List (List α) :=
  (pythonRange 0 ((indices.length : Int) - batchsize + 1) batchsize).map
    (fun s => (indices.drop s.toNat).take batchsize)

/-! ## Arrays and the preprocessing pipeline (`KaggleDR.prep_image`)

A raster image / tensor is a 3-dimensional array: explicit shape plus a
value function (values are exact rationals; the floating-point dtype of
the pipeline is tracked as metadata).  Out-of-bounds values are
irrelevant garbage, so pointwise statements are made at in-bounds
indices. -/

/-- A 3-dimensional numeric array of shape `(n0, n1, n2)`. -/
structure Arr3 where
  n0 : Nat
  n1 : Nat
  n2 : Nat
  val : Nat → Nat → Nat → ℚ

/-- The numeric dtypes the pipeline-wide `floatX` configuration can take
(`theano.config.floatX`, consumed by `lasagne.utils.floatX`). -/
inductive Dtype where
  | float32
  | float64
deriving DecidableEq

/-- Effective start position of a Python slice bound `a` on an axis of
length `n`: negative bounds count from the end, and bounds are clamped
to `[0, n]`. -/
def sliceStart (n : Nat) (a : Int) : Nat :=
  if a < 0 then ((n : Int) + a).toNat else min a.toNat n

/-- Python slicing `im[r0:r1, c0:c1]` of the first two axes of a
3-dimensional array (the center-crop step `im[h//2-112:h//2+112,
w//2-112:w//2+112]` of `prep_image`). -/
def sliceRC (im : Arr3) (r0 r1 c0 c1 : Int) : Arr3 :=
  { n0 := sliceStart im.n0 r1 - sliceStart im.n0 r0
    n1 := sliceStart im.n1 c1 - sliceStart im.n1 c0
    n2 := im.n2
    val := fun i j k => im.val (sliceStart im.n0 r0 + i) (sliceStart im.n1 c0 + j) k }

/-- Axis transposition `np.transpose(im, (2, 0, 1))`: axes
`(rows, cols, channels)` become `(channels, rows, cols)`. -/
def transpose201 (im : Arr3) : Arr3 :=
  { n0 := im.n2, n1 := im.n0, n2 := im.n1
    val := fun i j k => im.val j k i }

/-- Channel reversal `im[::-1, :, :]`: reverse the first axis (the
RGB → BGR step of `prep_image`). -/
def revAxis0 (im : Arr3) : Arr3 :=
  { n0 := im.n0, n1 := im.n1, n2 := im.n2
    val := fun i j k => im.val (im.n0 - 1 - i) j k }

/-- Shape contract of the external collaborator
`skimage.transform.resize(im, (h, w), preserve_range=True)`: the output
has the requested spatial shape and the input's channel count.  The
source relies on exactly this. -/
def ResizeShapeContract (resize : Arr3 → Nat → Nat → Arr3) : Prop :=
  ∀ a h w, (resize a h w).n0 = h ∧ (resize a h w).n1 = w ∧ (resize a h w).n2 = a.n2

/-- A concrete instance of the resize collaborator (nearest-neighbour
sampling), used to evaluate the pipeline on concrete inputs.  It
satisfies `ResizeShapeContract` definitionally. -/
def nearestResize (a : Arr3) (h w : Nat) : Arr3 :=
  { n0 := h, n1 := w, n2 := a.n2
    val := fun i j k => a.val (i * a.n0 / h) (j * a.n1 / w) k }

/-- The resize step of `prep_image` (src/datasets.py lines 127-133):
`h, w, _ = im.shape; if h < w: resize(im, (256, w*256/h)) else:
resize(im, (h*256/w, 256))` (Python 2 integer division). -/
def prep_resize (resize : Arr3 → Nat → Nat → Arr3) (im : Arr3) : Arr3 :=
  if im.n0 < im.n1 then resize im 256 (im.n1 * 256 / im.n0)
  else resize im (im.n0 * 256 / im.n1) 256

/-- Preprocessing `KaggleDR.prep_image` (src/datasets.py lines 105-141): resize the
smaller spatial extent to 256, center-crop to 224 × 224, transpose to
`(channels, rows, cols)`, reverse channels, cast with `floatX`.  The
cast is value-preserving here (values are exact); it fixes the output
dtype, returned as the second component. -/
def prep_image (resize : Arr3 → Nat → Nat → Arr3) (floatX : Dtype)
    (im : Arr3) : Arr3 × Dtype :=
  let im1 := prep_resize resize im
  let im2 := sliceRC im1 (((im1.n0 / 2 : Nat) : Int) - 112) (((im1.n0 / 2 : Nat) : Int) + 112)
    (((im1.n1 / 2 : Nat) : Int) - 112) (((im1.n1 / 2 : Nat) : Int) + 112)
  let im3 := transpose201 im2
  let im4 := revAxis0 im3
  (im4, floatX)

/-! ## `KaggleDR`: construction, image loading, batch loading -/

/-- Errors surfaced by batch loading: an out-of-range sample index
(`IndexError`), an unreadable or corrupt image file (`DecodeError`),
and a failure of the `assert` in `load_batch`. -/
inductive BatchError where
  | indexError
  | decodeError
  | assertionError
deriving DecidableEq

/-- The sample index and label store built by `KaggleDR.__init__`
(src/datasets.py lines 74-80). -/
structure KaggleDR where
  path_data : String
  image_filenames : List String
  y : List Int

/-- Sample count `KaggleDR.n_samples` — `self._n_samples = len(self.y)`. -/
def n_samples (kdr : KaggleDR) : Nat := kdr.y.length

/-- Construction-time errors (`LoadError` of the spec's taxonomy): the
label file is missing, a row is malformed or its label not an integer,
or a required column is absent. -/
inductive LoadError where
  | fileMissing
  | parseError
  | missingColumn (name : String)
deriving DecidableEq

/-- A parsed tabular label file, as delivered by the collaborator
`pandas.read_csv`: named columns of cell strings. -/
structure CsvTable where
  columns : List (String × List String)

/-- Elementwise fallible map, left to right, stopping at the first
failure — the evaluation order of a Python list comprehension or of
numpy/pandas fancy indexing. -/
def mapME (f : α → Except ε β) : List α → Except ε (List β)
  | [] => .ok []
  | a :: l => do
    let b ← f a
    let bl ← mapME f l
    pure (b :: bl)

/-- Column lookup `labels[name]` on the parsed table; a missing
column fails (pandas `KeyError`, a `LoadError` of the spec's
taxonomy). -/
def CsvTable.getCol (t : CsvTable) (name : String) : Except LoadError (List String) :=
  match t.columns.find? (fun c => c.1 = name) with
  | some c => .ok c.2
  | none => .error (.missingColumn name)

/-- Constructor `KaggleDR.__init__` (src/datasets.py lines 74-80).  The collaborator
`pd.read_csv` is abstracted as its outcome `readResult` (a parsed table,
or a `LoadError` when the file is missing or malformed); the integer
parse of the `level` column models the tabular collaborator's
string-to-integer conversion.  There is no exception handling in the
source: any failure aborts construction. -/
def kaggleDR_init (path_data : String) (readResult : Except LoadError CsvTable) :
    Except LoadError KaggleDR := do
  let labels ← readResult
  let image_filenames ← labels.getCol "image"
  let levels ← labels.getCol "level"
  let y ← mapME (fun s =>
    match s.toInt? with
    | some v => Except.ok v
    | none => Except.error LoadError.parseError) levels
  pure { path_data := path_data, image_filenames := image_filenames, y := y }

/-- The path `os.path.join(self.path_data, filename + '.jpeg')` built by
`KaggleDR.load_image` (src/datasets.py line 102). -/
def load_image_path (path_data filename : String) : String :=
  path_data ++ "/" ++ (filename ++ ".jpeg")

/-- Image loading `KaggleDR.load_image` (src/datasets.py lines 87-103): decode the
image file at the joined path.  The decoding collaborator
(`PIL.Image.open` + `np.array`) is the parameter `decode`; an
unreadable or corrupt file is a `decodeError`. -/
def load_image (decode : String → Except BatchError Arr3) (kdr : KaggleDR)
    (filename : String) : Except BatchError Arr3 :=
  decode (load_image_path kdr.path_data filename)

/-- Elementwise positional lookup `self.image_filenames[indices]` and
`self.y[indices]`:
positional lookup, failing with `IndexError` out of range. -/
def seriesGet (l : List α) (i : Nat) : Except BatchError α :=
  match l[i]? with
  | some x => .ok x
  | none => .error .indexError

/-- Batch loading `KaggleDR.load_batch` (src/datasets.py lines 143-159):
`X = np.array([self.prep_image(self.load_image(fn)) for fn in
self.image_filenames[indices]]); y = self.y[indices];
assert len(X) == len(y) == len(indices)`.  The fancy indexing
`self.image_filenames[indices]` is evaluated before any decode, so an
out-of-range index fails first. -/
def load_batch (decode : String → Except BatchError Arr3)
    (resize : Arr3 → Nat → Nat → Arr3) (floatX : Dtype) (kdr : KaggleDR)
    (indices : List Nat) : Except BatchError (List (Arr3 × Dtype) × List Int) := do
  let fns ← mapME (seriesGet kdr.image_filenames) indices
  let X ← mapME (fun fn => do
    let im ← load_image decode kdr fn
    pure (prep_image resize floatX im)) fns
  let y ← mapME (seriesGet kdr.y) indices
  if X.length = y.length ∧ y.length = indices.length then pure (X, y)
  else .error .assertionError

/-- Iterator `Dataset.iterate_minibatches` (src/datasets.py lines 37-65).  The
collaborator `np.random.shuffle` is the parameter `shuffleFn`; its
in-place mutation is made explicit by returning, next to the list of
yielded batches, the content of the caller's index sequence after the
call. -/
def iterate_minibatches (decode : String → Except BatchError Arr3)
    (resize : Arr3 → Nat → Nat → Arr3) (floatX : Dtype)
    (shuffleFn : List Nat → List Nat) (kdr : KaggleDR) (indices : List Nat)
    (batchsize : Nat) (shuffle : Bool) :
    List Nat × List (Except BatchError (List (Arr3 × Dtype) × List Int)) :=
  let idx := if shuffle then shuffleFn indices else indices
  (idx, (minibatchWindows idx batchsize).map (load_batch decode resize floatX kdr))

/-- Modelled from the spec: path resolution with the file extension as
a configuration parameter (`{data_directory}/{filename}.{extension}`),
rendering the spec's configuration-surface words for comparison with
the source's `load_image_path`. -/
def load_image_path_spec (ext : String) (path_data filename : String) : String :=
  path_data ++ "/" ++ (filename ++ "." ++ ext)

/-- Helper fixture used to evaluate the pipeline on concrete inputs: a
300 × 400 × 3 all-zero raster. -/
def testArr : Arr3 := ⟨300, 400, 3, fun _ _ _ => 0⟩

/-- Helper fixture: a concrete 2-sample store with labels `[0, 2]`. -/
def testKdr : KaggleDR := ⟨"data", ["img1", "img2"], [0, 2]⟩

/-! ## Lemmas about the windowing loop -/

lemma rangeCount_window (n bs : Nat) (hbs : 0 < bs) :
    rangeCount 0 ((n : Int) - bs + 1) bs = n / bs := by
  unfold rangeCount
  rcases lt_or_le n bs with h | h
  · rw [if_neg, Nat.div_eq_of_lt h]
    rintro ⟨h1, -⟩
    omega
  · rw [if_pos ⟨by omega, by omega⟩]
    have h1 : (n : Int) - bs + 1 - 0 - 1 = ((n - bs : Nat) : Int) := by
      push_cast [h]; ring
    rw [h1, ← Int.natCast_div, Int.toNat_natCast, Nat.div_eq_sub_div hbs h]

lemma minibatchWindows_eq_rangeMap (idx : List α) (bs : Nat) (hbs : 0 < bs) :
    minibatchWindows idx bs
      = (List.range (idx.length / bs)).map (fun k => (idx.drop (k * bs)).take bs) := by
  unfold minibatchWindows pythonRange
  rw [rangeCount_window _ _ hbs, List.map_map]
  refine List.map_congr_left ?_
  intro k hk
  simp only [Function.comp_apply]
  have hk2 : ((0 : Int) + (k : Nat) * (bs : Nat)).toNat = k * bs := by
    rw [zero_add, ← Nat.cast_mul, Int.toNat_natCast]
  rw [hk2]

lemma join_range_slices (idx : List α) (bs m : Nat) :
    ((List.range m).map (fun k => (idx.drop (k * bs)).take bs)).flatten
      = idx.take (bs * m) := by
  induction m with
  | zero => simp
  | succ m ih =>
    rw [List.range_succ, List.map_append, List.flatten_append, ih]
    simp only [List.map_cons, List.map_nil, List.flatten_cons, List.flatten_nil,
      List.append_nil]
    rw [Nat.mul_succ, List.take_add, mul_comm bs m]

/-- Claim C2: for every index sequence and `batchsize > 0`, the loop of
`iterate_minibatches` yields exactly `len(indices) / batchsize`
windows; the `b`-th window is the consecutive slice
`indices[b*batchsize : (b+1)*batchsize]` of exactly `batchsize`
elements, and the windows joined together are exactly the first
`batchsize * (len / batchsize)` indices — the remainder never appears
in any window. -/
theorem iterate_minibatches_drop_remainder (idx : List α) (bs : Nat) (hbs : 0 < bs) :
    (minibatchWindows idx bs).length = idx.length / bs ∧
    (∀ b, b < idx.length / bs →
      (minibatchWindows idx bs)[b]? = some ((idx.drop (b * bs)).take bs) ∧
      ((idx.drop (b * bs)).take bs).length = bs) ∧
    (minibatchWindows idx bs).flatten = idx.take (bs * (idx.length / bs)) := by
  rw [minibatchWindows_eq_rangeMap idx bs hbs]
  refine ⟨by simp, ?_, join_range_slices idx bs _⟩
  intro b hb
  constructor
  · rw [List.getElem?_map, List.getElem?_range hb]
    rfl
  · rw [List.length_take, List.length_drop]
    have h1 : b * bs + bs ≤ idx.length := by
      have h2 : (b + 1) * bs ≤ (idx.length / bs) * bs :=
        Nat.mul_le_mul_right bs hb
      have h3 : (idx.length / bs) * bs ≤ idx.length := Nat.div_mul_le_self _ _
      calc b * bs + bs = (b + 1) * bs := by ring
        _ ≤ idx.length := le_trans h2 h3
    omega

/-- Claim C2 witness: the boundary case — iterating over a single index
with batch size 2 yields zero batches. -/
theorem iterate_minibatches_drop_remainder_witness :
    (minibatchWindows ([0] : List Nat) 2).length = 0 := by
  have h := (iterate_minibatches_drop_remainder ([0] : List Nat) 2 (by decide)).1
  simpa using h

/-! ## Lemmas about fallible elementwise maps -/

lemma mapME_ok_of_forall {ε α β : Type} {f : α → Except ε β} {l : List α}
    (h : ∀ a ∈ l, ∃ b, f a = .ok b) :
    ∃ bl, mapME f l = .ok bl ∧ bl.length = l.length ∧
      ∀ (j : Nat) (a : α), l[j]? = some a → ∃ b, f a = .ok b ∧ bl[j]? = some b := by
  induction l with
  | nil =>
    refine ⟨[], rfl, rfl, ?_⟩
    intro j a hj
    simp at hj
  | cons x xs ih =>
    obtain ⟨b, hb⟩ := h x (List.mem_cons_self _ _)
    obtain ⟨bl, hbl, hlen, hidx⟩ := ih (fun a ha => h a (List.mem_cons_of_mem _ ha))
    refine ⟨b :: bl, ?_, by simp [hlen], ?_⟩
    · simp only [mapME, hb, hbl]
      rfl
    · intro j a hj
      match j with
      | 0 =>
        rw [List.getElem?_cons_zero] at hj
        cases hj
        exact ⟨b, hb, List.getElem?_cons_zero⟩
      | j + 1 =>
        simp only [List.getElem?_cons_succ] at hj ⊢
        exact hidx j a hj

lemma mapME_error_fixed {ε α β : Type} {f : α → Except ε β} {l : List α} (e : ε)
    (hall : ∀ a ∈ l, f a = .error e ∨ ∃ b, f a = .ok b)
    (hex : ∃ a ∈ l, f a = .error e) : mapME f l = .error e := by
  induction l with
  | nil =>
    obtain ⟨a, ha, -⟩ := hex
    exact absurd ha (List.not_mem_nil a)
  | cons x xs ih =>
    rcases hall x (List.mem_cons_self _ _) with hx | ⟨b, hb⟩
    · simp only [mapME, hx]
      rfl
    · have hxs : ∃ a ∈ xs, f a = .error e := by
        obtain ⟨a, ha, hae⟩ := hex
        rcases List.mem_cons.mp ha with rfl | hmem
        · rw [hb] at hae
          cases hae
        · exact ⟨a, hmem, hae⟩
      have htail := ih (fun a ha => hall a (List.mem_cons_of_mem _ ha)) hxs
      simp only [mapME, hb, htail]
      rfl

lemma seriesGet_ok {l : List α} {i : Nat} (h : i < l.length) :
    seriesGet l i = .ok l[i] := by
  unfold seriesGet
  rw [List.getElem?_eq_getElem h]

lemma seriesGet_eq_ok {l : List α} {i : Nat} {x : α}
    (h : seriesGet l i = .ok x) : l[i]? = some x := by
  unfold seriesGet at h
  cases hh : l[i]? with
  | none => rw [hh] at h; cases h
  | some v => rw [hh] at h; cases h; rfl

lemma except_bind_ok {ε α β : Type} (a : α) (f : α → Except ε β) :
    ((Except.ok a : Except ε α) >>= f) = f a := rfl

/-- Claim C1: for valid indices (and a decoder that succeeds),
`load_batch` returns `(X, y)` with `len(X) = len(y) = len(indices)`;
`y[j]` is the Store's label for `indices[j]`, and `X[j]` is the
preprocessed decode of the Store's filename for `indices[j]` —
positional alignment of batch, labels and indices. -/
theorem load_batch_alignment (decode : String → Except BatchError Arr3)
    (resize : Arr3 → Nat → Nat → Arr3) (floatX : Dtype) (kdr : KaggleDR)
    (indices : List Nat)
    (hvalid : ∀ i ∈ indices, i < kdr.image_filenames.length ∧ i < kdr.y.length)
    (hdecode : ∀ s, ∃ im, decode s = .ok im) :
    ∃ X y, load_batch decode resize floatX kdr indices = .ok (X, y) ∧
      X.length = indices.length ∧ y.length = indices.length ∧
      (∀ (j i : Nat), indices[j]? = some i → y[j]? = kdr.y[i]?) ∧
      (∀ (j i : Nat), indices[j]? = some i →
        ∃ fn im, kdr.image_filenames[i]? = some fn ∧
          load_image decode kdr fn = .ok im ∧
          X[j]? = some (prep_image resize floatX im)) := by
  have hf : ∀ i ∈ indices, ∃ b, seriesGet kdr.image_filenames i = .ok b :=
    fun i hi => ⟨_, seriesGet_ok (hvalid i hi).1⟩
  obtain ⟨fns, hfns, hfnslen, hfnsidx⟩ := mapME_ok_of_forall hf
  have hg : ∀ fn ∈ fns,
      ∃ x, (do
        let im ← load_image decode kdr fn
        pure (prep_image resize floatX im) : Except BatchError (Arr3 × Dtype)) = .ok x := by
    intro fn _
    obtain ⟨im, him⟩ := hdecode (load_image_path kdr.path_data fn)
    have him2 : load_image decode kdr fn = .ok im := him
    exact ⟨prep_image resize floatX im, by rw [him2, except_bind_ok]; rfl⟩
  obtain ⟨X, hX, hXlen, hXidx⟩ := mapME_ok_of_forall hg
  have hy : ∀ i ∈ indices, ∃ b, seriesGet kdr.y i = .ok b :=
    fun i hi => ⟨_, seriesGet_ok (hvalid i hi).2⟩
  obtain ⟨y, hyok, hylen, hyidx⟩ := mapME_ok_of_forall hy
  have hXlen2 : X.length = indices.length := hXlen.trans hfnslen
  refine ⟨X, y, ?_, hXlen2, hylen, ?_, ?_⟩
  · unfold load_batch
    rw [hfns, except_bind_ok, hX, except_bind_ok, hyok, except_bind_ok,
      if_pos ⟨hXlen2.trans hylen.symm, hylen⟩]
    rfl
  · intro j i hj
    obtain ⟨b, hbok, hbidx⟩ := hyidx j i hj
    rw [hbidx]
    exact (seriesGet_eq_ok hbok).symm
  · intro j i hj
    obtain ⟨fn, hfnok, hfnidx⟩ := hfnsidx j i hj
    obtain ⟨x, hxok, hxidx⟩ := hXidx j fn hfnidx
    obtain ⟨im, him⟩ := hdecode (load_image_path kdr.path_data fn)
    have him2 : load_image decode kdr fn = .ok im := him
    rw [him2, except_bind_ok] at hxok
    cases hxok
    exact ⟨fn, im, seriesGet_eq_ok hfnok, him2, hxidx⟩

/-- Claim C1 witness: a concrete 2-sample store with labels `[0, 2]` and
an always-succeeding decoder, loaded at indices `[0, 1]`. -/
theorem load_batch_alignment_witness :
    ∃ X y, load_batch (fun _ => Except.ok testArr) nearestResize Dtype.float32
        testKdr [0, 1] = .ok (X, y) ∧
      X.length = ([0, 1] : List Nat).length ∧
      y.length = ([0, 1] : List Nat).length ∧
      (∀ (j i : Nat), ([0, 1] : List Nat)[j]? = some i →
        y[j]? = testKdr.y[i]?) ∧
      (∀ (j i : Nat), ([0, 1] : List Nat)[j]? = some i →
        ∃ fn im, testKdr.image_filenames[i]? = some fn ∧
          load_image (fun _ => Except.ok testArr) testKdr fn = .ok im ∧
          X[j]? = some (prep_image nearestResize Dtype.float32 im)) :=
  load_batch_alignment (fun _ => Except.ok testArr) nearestResize Dtype.float32
    testKdr [0, 1] (by decide) (fun _ => ⟨testArr, rfl⟩)

/-- Claim C6: every sample index at or beyond `n_samples` makes
`load_batch` fail with `IndexError` — the fancy indexing
`self.image_filenames[indices]` raises before anything else runs, so
the error reaches the caller immediately. -/
theorem load_batch_out_of_range (decode : String → Except BatchError Arr3)
    (resize : Arr3 → Nat → Nat → Arr3) (floatX : Dtype) (kdr : KaggleDR)
    (indices : List Nat)
    (hlen : kdr.image_filenames.length = n_samples kdr)
    (i : Nat) (hi : i ∈ indices) (hout : n_samples kdr ≤ i) :
    load_batch decode resize floatX kdr indices = .error .indexError := by
  have h1 : mapME (seriesGet kdr.image_filenames) indices = .error .indexError := by
    apply mapME_error_fixed
    · intro a _
      unfold seriesGet
      cases h : kdr.image_filenames[a]? with
      | none => exact Or.inl rfl
      | some x => exact Or.inr ⟨x, rfl⟩
    · refine ⟨i, hi, ?_⟩
      unfold seriesGet
      rw [List.getElem?_eq_none (by omega)]
  unfold load_batch
  rw [h1]
  rfl

/-- Claim C6 witness: on a 2-sample store, loading index 5 fails with
`IndexError`. -/
theorem load_batch_out_of_range_witness :
    load_batch (fun _ => Except.ok ⟨1, 1, 3, fun _ _ _ => 0⟩) nearestResize
      Dtype.float32 ⟨"d", ["a", "b"], [0, 2]⟩ [0, 5] = .error .indexError :=
  load_batch_out_of_range _ nearestResize Dtype.float32 ⟨"d", ["a", "b"], [0, 2]⟩
    [0, 5] rfl 5 (by decide) (by decide)

/-- Claim C10: with `shuffle = false` the caller's index sequence is left
untouched, and the `b`-th yielded batch is `load_batch` applied to the
contiguous slice `indices[b*batchsize : (b+1)*batchsize]` in the
original caller-supplied order. -/
theorem iterate_minibatches_no_shuffle (decode : String → Except BatchError Arr3)
    (resize : Arr3 → Nat → Nat → Arr3) (floatX : Dtype)
    (shuffleFn : List Nat → List Nat) (kdr : KaggleDR) (indices : List Nat)
    (batchsize : Nat) (hbs : 0 < batchsize) :
    (iterate_minibatches decode resize floatX shuffleFn kdr indices batchsize false).1
        = indices ∧
    (iterate_minibatches decode resize floatX shuffleFn kdr indices batchsize false).2.length
        = indices.length / batchsize ∧
    ∀ b, b < indices.length / batchsize →
      (iterate_minibatches decode resize floatX shuffleFn kdr indices batchsize false).2[b]?
        = some (load_batch decode resize floatX kdr
            ((indices.drop (b * batchsize)).take batchsize)) := by
  refine ⟨rfl, ?_, ?_⟩
  · show ((minibatchWindows indices batchsize).map
        (load_batch decode resize floatX kdr)).length = _
    rw [List.length_map, minibatchWindows_eq_rangeMap _ _ hbs, List.length_map,
      List.length_range]
  · intro b hb
    show ((minibatchWindows indices batchsize).map
        (load_batch decode resize floatX kdr))[b]? = _
    rw [minibatchWindows_eq_rangeMap _ _ hbs, List.map_map, List.getElem?_map,
      List.getElem?_range hb]
    rfl

/-- Claim C10 witness: `iterate([0, 1], batchsize 2, shuffle false)` on a
concrete store leaves the index list `[0, 1]` unchanged and yields the
single batch `load_batch [0, 1]`. -/
theorem iterate_minibatches_no_shuffle_witness :
    (iterate_minibatches (fun _ => Except.ok testArr) nearestResize Dtype.float32
        List.reverse testKdr [0, 1] 2 false).1 = [0, 1] ∧
    (iterate_minibatches (fun _ => Except.ok testArr) nearestResize Dtype.float32
        List.reverse testKdr [0, 1] 2 false).2.length = ([0, 1] : List Nat).length / 2 ∧
    ∀ b, b < ([0, 1] : List Nat).length / 2 →
      (iterate_minibatches (fun _ => Except.ok testArr) nearestResize Dtype.float32
          List.reverse testKdr [0, 1] 2 false).2[b]?
        = some (load_batch (fun _ => Except.ok testArr) nearestResize Dtype.float32
            testKdr ((([0, 1] : List Nat).drop (b * 2)).take 2)) :=
  iterate_minibatches_no_shuffle (fun _ => Except.ok testArr) nearestResize
    Dtype.float32 List.reverse testKdr [0, 1] 2 (by decide)

/-- Claim C7: with `shuffle = true` the caller's sequence is permuted in
place before windowing: after the call it holds exactly the shuffled
sequence — a permutation of its original elements — and the yielded
batches are the windows of that shuffled sequence. -/
theorem iterate_minibatches_shuffle_permutes (decode : String → Except BatchError Arr3)
    (resize : Arr3 → Nat → Nat → Arr3) (floatX : Dtype)
    (shuffleFn : List Nat → List Nat) (kdr : KaggleDR) (indices : List Nat)
    (batchsize : Nat) (hshuf : ∀ l : List Nat, (shuffleFn l).Perm l) :
    (iterate_minibatches decode resize floatX shuffleFn kdr indices batchsize true).1.Perm
        indices ∧
    (iterate_minibatches decode resize floatX shuffleFn kdr indices batchsize true).1
        = shuffleFn indices ∧
    (iterate_minibatches decode resize floatX shuffleFn kdr indices batchsize true).2
        = (minibatchWindows (shuffleFn indices) batchsize).map
            (load_batch decode resize floatX kdr) :=
  ⟨hshuf indices, rfl, rfl⟩

/-- Claim C7 witness: with the reversal permutation as the concrete
shuffle collaborator, the caller's `[0, 1]` ends up as a permutation of
itself (namely `[1, 0]`). -/
theorem iterate_minibatches_shuffle_permutes_witness :
    (iterate_minibatches (fun _ => Except.ok testArr) nearestResize Dtype.float32
        List.reverse testKdr [0, 1] 1 true).1.Perm [0, 1] ∧
    (iterate_minibatches (fun _ => Except.ok testArr) nearestResize Dtype.float32
        List.reverse testKdr [0, 1] 1 true).1 = List.reverse [0, 1] ∧
    (iterate_minibatches (fun _ => Except.ok testArr) nearestResize Dtype.float32
        List.reverse testKdr [0, 1] 1 true).2
      = (minibatchWindows (List.reverse [0, 1]) 1).map
          (load_batch (fun _ => Except.ok testArr) nearestResize Dtype.float32 testKdr) :=
  iterate_minibatches_shuffle_permutes (fun _ => Except.ok testArr) nearestResize
    Dtype.float32 List.reverse testKdr [0, 1] 1 (fun l => l.reverse_perm)

lemma except_bind_error {ε α β : Type} (e : ε) (f : α → Except ε β) :
    ((Except.error e : Except ε α) >>= f) = .error e := rfl

lemma mapME_ok_length {ε α β : Type} {f : α → Except ε β} :
    ∀ {l : List α} {bl : List β}, mapME f l = .ok bl → bl.length = l.length := by
  intro l
  induction l with
  | nil =>
    intro bl h
    cases h
    rfl
  | cons x xs ih =>
    intro bl h
    simp only [mapME] at h
    cases hx : f x with
    | error e =>
      rw [hx, except_bind_error] at h
      cases h
    | ok b =>
      rw [hx, except_bind_ok] at h
      cases hxs : mapME f xs with
      | error e =>
        rw [hxs, except_bind_error] at h
        cases h
      | ok bl2 =>
        rw [hxs, except_bind_ok] at h
        cases h
        simp [ih hxs]

/-- Claim C5: construction of `KaggleDR` fails whenever the label file is
missing or malformed (the read collaborator reports an error, which is
propagated), a required column is absent, or some `level` cell is not
an integer; and when it succeeds, the whole table is loaded — one label
per row, no partial load. -/
theorem kaggleDR_init_fails_on_bad_label_file (p : String)
    (r : Except LoadError CsvTable) :
    (∀ e, r = .error e → kaggleDR_init p r = .error e) ∧
    (∀ t name, r = .ok t → (name = "image" ∨ name = "level") →
      t.getCol name = .error (.missingColumn name) →
      ∃ e, kaggleDR_init p r = .error e) ∧
    (∀ t levels, r = .ok t → t.getCol "level" = .ok levels →
      (∃ s ∈ levels, s.toInt? = none) →
      ∃ e, kaggleDR_init p r = .error e) ∧
    (∀ kdr, kaggleDR_init p r = .ok kdr →
      ∃ t fns levels, r = .ok t ∧ t.getCol "image" = .ok fns ∧
        t.getCol "level" = .ok levels ∧ kdr.path_data = p ∧
        kdr.image_filenames = fns ∧ kdr.y.length = levels.length) := by
  refine ⟨?_, ?_, ?_, ?_⟩
  · intro e he
    subst he
    rfl
  · intro t name ht hname hcol
    subst ht
    rcases hname with rfl | rfl
    · refine ⟨.missingColumn "image", ?_⟩
      simp only [kaggleDR_init, except_bind_ok, hcol, except_bind_error]
    · cases himg : t.getCol "image" with
      | error e =>
        refine ⟨e, ?_⟩
        simp only [kaggleDR_init, except_bind_ok, himg, except_bind_error]
      | ok fns =>
        refine ⟨.missingColumn "level", ?_⟩
        simp only [kaggleDR_init, except_bind_ok, himg, hcol, except_bind_error]
  · intro t levels ht hlev hbad
    subst ht
    cases himg : t.getCol "image" with
    | error e =>
      refine ⟨e, ?_⟩
      simp only [kaggleDR_init, except_bind_ok, himg, except_bind_error]
    | ok fns =>
      have hmap : mapME (fun s =>
          match s.toInt? with
          | some v => Except.ok v
          | none => Except.error LoadError.parseError) levels
            = .error .parseError := by
        apply mapME_error_fixed
        · intro s _
          cases hs : s.toInt? with
          | none => exact Or.inl rfl
          | some v => exact Or.inr ⟨v, rfl⟩
        · obtain ⟨s, hsmem, hs⟩ := hbad
          refine ⟨s, hsmem, ?_⟩
          simp only [hs]
      refine ⟨.parseError, ?_⟩
      simp only [kaggleDR_init, except_bind_ok, himg, hlev, hmap, except_bind_error]
  · intro kdr hkdr
    cases r with
    | error e =>
      cases hkdr
    | ok t =>
      cases himg : t.getCol "image" with
      | error e =>
        simp only [kaggleDR_init, except_bind_ok, himg, except_bind_error] at hkdr
        cases hkdr
      | ok fns =>
        cases hlev : t.getCol "level" with
        | error e =>
          simp only [kaggleDR_init, except_bind_ok, himg, hlev,
            except_bind_error] at hkdr
          cases hkdr
        | ok levels =>
          cases hmap : mapME (fun s =>
              match s.toInt? with
              | some v => Except.ok v
              | none => Except.error LoadError.parseError) levels with
          | error e =>
            simp only [kaggleDR_init, except_bind_ok, himg, hlev, hmap,
              except_bind_error] at hkdr
            cases hkdr
          | ok y =>
            simp only [kaggleDR_init, except_bind_ok, himg, hlev, hmap] at hkdr
            cases hkdr
            exact ⟨t, fns, levels, rfl, himg, hlev, rfl, rfl, mapME_ok_length hmap⟩

/-- Claim C5 witness: a missing label file aborts construction with the
read collaborator's error, and a well-formed 2-row table loads fully. -/
theorem kaggleDR_init_fails_on_bad_label_file_witness :
    kaggleDR_init "data" (.error .fileMissing) = .error .fileMissing :=
  (kaggleDR_init_fails_on_bad_label_file "data" (.error .fileMissing)).1
    .fileMissing rfl

/-! ## Shape lemmas for the preprocessing pipeline -/

lemma prep_resize_ge256 (resize : Arr3 → Nat → Nat → Arr3)
    (hres : ResizeShapeContract resize) (im : Arr3)
    (h0 : 1 ≤ im.n0) (h1 : 1 ≤ im.n1) :
    256 ≤ (prep_resize resize im).n0 ∧ 256 ≤ (prep_resize resize im).n1 ∧
      (prep_resize resize im).n2 = im.n2 := by
  unfold prep_resize
  by_cases h : im.n0 < im.n1
  · rw [if_pos h]
    obtain ⟨ha, hb, hc⟩ := hres im 256 (im.n1 * 256 / im.n0)
    refine ⟨le_of_eq ha.symm, ?_, hc⟩
    rw [hb, Nat.le_div_iff_mul_le h0]
    calc 256 * im.n0 = im.n0 * 256 := mul_comm _ _
      _ ≤ im.n1 * 256 := Nat.mul_le_mul_right _ (le_of_lt h)
  · rw [if_neg h]
    obtain ⟨ha, hb, hc⟩ := hres im (im.n0 * 256 / im.n1) 256
    refine ⟨?_, le_of_eq hb.symm, hc⟩
    rw [ha, Nat.le_div_iff_mul_le h1]
    calc 256 * im.n1 = im.n1 * 256 := mul_comm _ _
      _ ≤ im.n0 * 256 := Nat.mul_le_mul_right _ (le_of_not_lt h)

lemma sliceStart_sub112 (n : Nat) (h : 256 ≤ n) :
    sliceStart n (((n / 2 : Nat) : Int) - 112) = n / 2 - 112 := by
  unfold sliceStart
  rw [if_neg (by omega)]
  have h2 : ((n / 2 : Nat) : Int) - 112 = ((n / 2 - 112 : Nat) : Int) := by omega
  rw [h2, Int.toNat_natCast]
  exact Nat.min_eq_left (by omega)

lemma sliceStart_add112 (n : Nat) (h : 224 ≤ n) :
    sliceStart n (((n / 2 : Nat) : Int) + 112) = n / 2 + 112 := by
  unfold sliceStart
  rw [if_neg (by omega)]
  have h2 : ((n / 2 : Nat) : Int) + 112 = ((n / 2 + 112 : Nat) : Int) := by omega
  rw [h2, Int.toNat_natCast]
  exact Nat.min_eq_left (by omega)

lemma prep_image_shape (resize : Arr3 → Nat → Nat → Arr3)
    (hres : ResizeShapeContract resize) (floatX : Dtype) (im : Arr3)
    (h0 : 1 ≤ im.n0) (h1 : 1 ≤ im.n1) :
    (prep_image resize floatX im).1.n0 = im.n2 ∧
    (prep_image resize floatX im).1.n1 = 224 ∧
    (prep_image resize floatX im).1.n2 = 224 := by
  obtain ⟨ha, hb, hc⟩ := prep_resize_ge256 resize hres im h0 h1
  refine ⟨hc, ?_, ?_⟩
  · show sliceStart (prep_resize resize im).n0
        ((((prep_resize resize im).n0 / 2 : Nat) : Int) + 112)
      - sliceStart (prep_resize resize im).n0
        ((((prep_resize resize im).n0 / 2 : Nat) : Int) - 112) = 224
    rw [sliceStart_add112 _ (by omega), sliceStart_sub112 _ ha]
    omega
  · show sliceStart (prep_resize resize im).n1
        ((((prep_resize resize im).n1 / 2 : Nat) : Int) + 112)
      - sliceStart (prep_resize resize im).n1
        ((((prep_resize resize im).n1 / 2 : Nat) : Int) - 112) = 224
    rw [sliceStart_add112 _ (by omega), sliceStart_sub112 _ hb]
    omega

lemma prep_image_val (resize : Arr3 → Nat → Nat → Arr3)
    (hres : ResizeShapeContract resize) (floatX : Dtype) (im : Arr3)
    (hch : im.n2 = 3) (h0 : 1 ≤ im.n0) (h1 : 1 ≤ im.n1) :
    ∀ i r c, (prep_image resize floatX im).1.val i r c
      = (prep_resize resize im).val
          ((prep_resize resize im).n0 / 2 - 112 + r)
          ((prep_resize resize im).n1 / 2 - 112 + c) (2 - i) := by
  obtain ⟨ha, hb, hc⟩ := prep_resize_ge256 resize hres im h0 h1
  intro i r c
  show (prep_resize resize im).val
      (sliceStart (prep_resize resize im).n0
        ((((prep_resize resize im).n0 / 2 : Nat) : Int) - 112) + r)
      (sliceStart (prep_resize resize im).n1
        ((((prep_resize resize im).n1 / 2 : Nat) : Int) - 112) + c)
      ((prep_resize resize im).n2 - 1 - i) = _
  rw [sliceStart_sub112 _ ha, sliceStart_sub112 _ hb, hc, hch]

/-- Claim C4: the resize step of `prep_image` rescales so the smaller
spatial dimension becomes exactly 256 while preserving the source's
formula: target `(256, w*256/h)` when `h < w`, else `(h*256/w, 256)`;
the channel count is untouched, and the minimum of the two target
dimensions is 256 for every input — images smaller than 256 on the
short side are upscaled by the same formula with no guard. -/
theorem prep_resize_short_side (resize : Arr3 → Nat → Nat → Arr3)
    (hres : ResizeShapeContract resize) (im : Arr3)
    (h0 : 1 ≤ im.n0) (h1 : 1 ≤ im.n1) :
    ((im.n0 < im.n1 → (prep_resize resize im).n0 = 256 ∧
        (prep_resize resize im).n1 = im.n1 * 256 / im.n0) ∧
      (¬ im.n0 < im.n1 → (prep_resize resize im).n0 = im.n0 * 256 / im.n1 ∧
        (prep_resize resize im).n1 = 256)) ∧
    (prep_resize resize im).n2 = im.n2 ∧
    min (prep_resize resize im).n0 (prep_resize resize im).n1 = 256 := by
  obtain ⟨ha, hb, hc⟩ := prep_resize_ge256 resize hres im h0 h1
  refine ⟨⟨?_, ?_⟩, hc, ?_⟩
  · intro h
    unfold prep_resize
    rw [if_pos h]
    exact ⟨(hres im _ _).1, (hres im _ _).2.1⟩
  · intro h
    unfold prep_resize
    rw [if_neg h]
    exact ⟨(hres im _ _).1, (hres im _ _).2.1⟩
  · unfold prep_resize at ha hb ⊢
    by_cases h : im.n0 < im.n1
    · rw [if_pos h] at hb ⊢
      rw [(hres im 256 (im.n1 * 256 / im.n0)).1]
      exact Nat.min_eq_left hb
    · rw [if_neg h] at ha ⊢
      rw [(hres im (im.n0 * 256 / im.n1) 256).2.1]
      exact Nat.min_eq_right ha

/-- Claim C4 witness: a 300 × 400 image is rescaled to a target whose
smaller dimension is exactly 256. -/
theorem prep_resize_short_side_witness :
    min (prep_resize nearestResize testArr).n0 (prep_resize nearestResize testArr).n1
      = 256 :=
  (prep_resize_short_side nearestResize (fun _ _ _ => ⟨rfl, rfl, rfl⟩) testArr
    (by decide) (by decide)).2.2

/-- Claim C3: for every 3-channel image, `prep_image` produces a tensor
of exact shape `(3, 224, 224)` whose dtype is the configured
floating-point type, and whose entry at channel `i`, row `r`, column
`c` is the rescaled image's value at row `h/2 - 112 + r`, column
`w/2 - 112 + c` (floor-based centering) and reversed channel `2 - i`. -/
theorem prep_image_center_crop (resize : Arr3 → Nat → Nat → Arr3)
    (hres : ResizeShapeContract resize) (floatX : Dtype) (im : Arr3)
    (hch : im.n2 = 3) (h0 : 1 ≤ im.n0) (h1 : 1 ≤ im.n1) :
    (prep_image resize floatX im).2 = floatX ∧
    (prep_image resize floatX im).1.n0 = 3 ∧
    (prep_image resize floatX im).1.n1 = 224 ∧
    (prep_image resize floatX im).1.n2 = 224 ∧
    ∀ i r c, (prep_image resize floatX im).1.val i r c
      = (prep_resize resize im).val
          ((prep_resize resize im).n0 / 2 - 112 + r)
          ((prep_resize resize im).n1 / 2 - 112 + c) (2 - i) := by
  obtain ⟨hn0, hn1, hn2⟩ := prep_image_shape resize hres floatX im h0 h1
  exact ⟨rfl, hn0.trans hch, hn1, hn2,
    prep_image_val resize hres floatX im hch h0 h1⟩

/-- Claim C3 witness: preprocessing a concrete 300 × 400 × 3 image with a
concrete resize collaborator yields shape `(3, 224, 224)` and the
configured dtype. -/
theorem prep_image_center_crop_witness :
    (prep_image nearestResize Dtype.float32 testArr).2 = Dtype.float32 ∧
    (prep_image nearestResize Dtype.float32 testArr).1.n0 = 3 ∧
    (prep_image nearestResize Dtype.float32 testArr).1.n1 = 224 ∧
    (prep_image nearestResize Dtype.float32 testArr).1.n2 = 224 :=
  let h := prep_image_center_crop nearestResize (fun _ _ _ => ⟨rfl, rfl, rfl⟩)
    Dtype.float32 testArr rfl (by decide) (by decide)
  ⟨h.1, h.2.1, h.2.2.1, h.2.2.2.1⟩

/-- Claim C8: the channel reversal `im[::-1, :, :]` of `prep_image` is an
involution: applied twice to any 3-axis array it restores the shape and
every in-bounds entry, hence the original channel order. -/
theorem revAxis0_involution (a : Arr3) :
    (revAxis0 (revAxis0 a)).n0 = a.n0 ∧ (revAxis0 (revAxis0 a)).n1 = a.n1 ∧
    (revAxis0 (revAxis0 a)).n2 = a.n2 ∧
    ∀ i j k, i < a.n0 → (revAxis0 (revAxis0 a)).val i j k = a.val i j k := by
  refine ⟨rfl, rfl, rfl, ?_⟩
  intro i j k hi
  show a.val (a.n0 - 1 - (a.n0 - 1 - i)) j k = a.val i j k
  congr 1
  omega

/-- Claim C8 witness: double reversal restores a concrete entry of a
concrete array. -/
theorem revAxis0_involution_witness :
    (revAxis0 (revAxis0 testArr)).val 1 0 0 = testArr.val 1 0 0 :=
  (revAxis0_involution testArr).2.2.2 1 0 0 (by decide)

/-! ## The configuration surface (claim about parameters vs constants) -/

/-- Claim C9 counterexample: the extension and the crop size are not
configurable.  With wished-for extension `"png"` the source still
resolves a `".jpeg"` path, and with wished-for crop size 112 the output
spatial size is still 224. -/
theorem config_surface_counterexample :
    load_image_path "data" "img1" ≠ load_image_path_spec "png" "data" "img1" ∧
    load_image_path "data" "img1" = load_image_path_spec "jpeg" "data" "img1" ∧
    (prep_image nearestResize Dtype.float32 testArr).1.n1 = 224 ∧
    (prep_image nearestResize Dtype.float32 testArr).1.n1 ≠ 112 := by
  refine ⟨by decide, rfl, ?_, ?_⟩
  · have h := prep_image_center_crop nearestResize (fun _ _ _ => ⟨rfl, rfl, rfl⟩)
      Dtype.float32 testArr rfl (by decide) (by decide)
    exact h.2.2.1
  · have h := prep_image_center_crop nearestResize (fun _ _ _ => ⟨rfl, rfl, rfl⟩)
      Dtype.float32 testArr rfl (by decide) (by decide)
    rw [h.2.2.1]
    decide

/-- Claim C9 amended: crop size (224), short-side resize target (256) and
file extension (".jpeg") are hardcoded constants of `KaggleDR`, not
parameters: image paths are always resolved with ".jpeg" and the output
spatial size is always 224 × 224.  Only the floating-point dtype
follows the pipeline-wide `floatX` configuration. -/
theorem config_surface_hardcoded (resize : Arr3 → Nat → Nat → Arr3)
    (hres : ResizeShapeContract resize) (floatX : Dtype) (im : Arr3)
    (h0 : 1 ≤ im.n0) (h1 : 1 ≤ im.n1) (path fn : String) :
    load_image_path path fn = path ++ "/" ++ (fn ++ ".jpeg") ∧
    (prep_image resize floatX im).1.n1 = 224 ∧
    (prep_image resize floatX im).1.n2 = 224 ∧
    (prep_image resize floatX im).2 = floatX := by
  obtain ⟨-, hn1, hn2⟩ := prep_image_shape resize hres floatX im h0 h1
  exact ⟨rfl, hn1, hn2, rfl⟩

/-- Claim C9 amended witness: concrete instantiation of the hardcoded
constants statement. -/
theorem config_surface_hardcoded_witness :
    load_image_path "data" "img1" = "data" ++ "/" ++ ("img1" ++ ".jpeg") ∧
    (prep_image nearestResize Dtype.float64 testArr).1.n1 = 224 ∧
    (prep_image nearestResize Dtype.float64 testArr).1.n2 = 224 ∧
    (prep_image nearestResize Dtype.float64 testArr).2 = Dtype.float64 :=
  config_surface_hardcoded nearestResize (fun _ _ _ => ⟨rfl, rfl, rfl⟩)
    Dtype.float64 testArr (by decide) (by decide) "data" "img1"

end DiseaseDetection
